import Mathlib

/-!
Verification development for the GitHubScraper repository.

Shallow embedding of:
* `utils/time`'s `getPreviousWeek` (calendar dates are modelled as day
  numbers `Int`, so that `moment.subtract(1, 'week')` is subtraction of 7
  and `moment(a).isAfter(b)` is `b < a`);
* `src/scraper.ts`'s `Scraper.run` window loop over the persisted
  `ScrapingResult` state, with remote calls abstracted into an `Api`
  record (successful page/repo/user fetches are pure functions; the
  per-repository event fetch may fail, which is the one failure the
  controller handles);
* the two variants of `utils/requestWrapper` (one throwing `RepoBlocked`,
  the other throwing `RateLimitError` on a quota-exhausted success),
  embedded with an explicit fuel parameter for the unbounded rate-limit
  recursion, an attempt index (the operation may behave differently on
  each invocation) and an event trace recording issued attempts and
  blocking waits.
-/

/-- `getPreviousWeek` from `utils/time`: subtract one calendar week
(7 days) from a date, dates being modelled as day numbers. -/
def getPreviousWeek (date : Int) : Int :=
  date - 7

/-- A repository record as returned by `GET /users/{username}/repos`;
the four numeric counters are optional in the client's type, mirrored by
`Option Nat` (the scraper defaults an absent value to 0 via `?? 0`). -/
structure Repo where
  name : String
  stargazers_count : Option Nat
  watchers_count : Option Nat
  forks_count : Option Nat
  open_issues_count : Option Nat
deriving DecidableEq

/-- An activity event returned by `GET /repos/{owner}/{repo}/events`;
the scraper only ever takes the length of the returned list. -/
structure Event where
  id : Nat
deriving DecidableEq

/-- `RepoWithEvents` from `interfaces`: a repository spread together with
its `last_90_days_events_count`. -/
structure RepoWithEvents extends Repo where
  last_90_days_events_count : Nat
deriving DecidableEq

/-- `PublicUser` from `interfaces`: the fields of the full profile that
`Scraper.run` destructures before assembling an `Organization`. -/
structure PublicUser where
  login : String
  id : Nat
  avatar_url : String
  html_url : String
  name : Option String
  company : Option String
  blog : Option String
  location : Option String
  email : Option String
  hireable : Option Bool
  bio : Option String
  twitter_username : Option String
  public_repos : Nat
  followers : Nat
  following : Nat
  created_at : Int
  updated_at : Int
deriving DecidableEq

/-- `Organization` from `interfaces`: the enriched entity record appended
to the accumulated result set. -/
structure Organization where
  login : String
  id : Nat
  avatarUrl : String
  htmlUrl : String
  name : Option String
  company : Option String
  blog : Option String
  location : Option String
  email : Option String
  hireable : Option Bool
  bio : Option String
  twitterUsername : Option String
  publicRepos : Nat
  followers : Nat
  following : Nat
  createdAt : Int
  updatedAt : Int
  totalRepoStars : Nat
  totalRepoWatchers : Nat
  totalRepoForks : Nat
  totalRepoOpenIssues : Nat
  totalRepoLast90DaysEvents : Nat
deriving DecidableEq

/-- An item of a `GET /search/users` page; the controller reads only its
`login`. -/
structure SearchUser where
  login : String
deriving DecidableEq

/-- `ScrapingResult` from `interfaces`: the persisted checkpoint document
(`nextPageToScrape`, `searchingDate`, `organizations`), which is also the
scraper's in-memory state (`this.nextPageToScrape`, `this.date`,
`this.organizations`). -/
structure ScrapingResult where
  nextPageToScrape : Nat
  searchingDate : Int
  organizations : List Organization
deriving DecidableEq

/-- Errors that `requestWrapper` lets escape to the controller: the
`RepoBlocked` error class, or any other surfaced error. -/
inductive GHError where
  | repoBlocked (reason : String)
  | other (message : String)
deriving DecidableEq

/-- The search request issued at the top of the window loop:
`q = baseQuery + " created:" + getPreviousWeek(date) + ".." + date`,
`page = nextPageToScrape`, `per_page = 100`. -/
structure SearchQuery where
  baseQuery : String
  createdFrom : Int
  createdTo : Int
  page : Nat
  perPage : Nat
deriving DecidableEq

/-- The remote API as seen through `requestWrapper` by `Scraper.run`.
Page, repository-list and profile fetches are modelled as the data of
their successful outcomes; the per-repository event fetch is the one
call whose failure the controller inspects, so it returns `Except`. -/
structure Api where
  search : SearchQuery → List SearchUser
  reposOf : String → List Repo
  userOf : String → PublicUser
  eventsOf : String → String → Except GHError (List Event)

/-- `repos.reduce((acc, r) => acc + (r.stargazers_count ?? 0), 0)`. -/
def totalRepoStars (repos : List RepoWithEvents) : Nat :=
  repos.foldl (fun acc r => acc + (r.stargazers_count.getD 0)) 0

/-- `repos.reduce((acc, r) => acc + (r.watchers_count ?? 0), 0)`. -/
def totalRepoWatchers (repos : List RepoWithEvents) : Nat :=
  repos.foldl (fun acc r => acc + (r.watchers_count.getD 0)) 0

/-- `repos.reduce((acc, r) => acc + (r.forks_count ?? 0), 0)`. -/
def totalRepoForks (repos : List RepoWithEvents) : Nat :=
  repos.foldl (fun acc r => acc + (r.forks_count.getD 0)) 0

/-- `repos.reduce((acc, r) => acc + (r.open_issues_count ?? 0), 0)`. -/
def totalRepoOpenIssues (repos : List RepoWithEvents) : Nat :=
  repos.foldl (fun acc r => acc + (r.open_issues_count.getD 0)) 0

/-- `repos.reduce((acc, r) => acc + r.last_90_days_events_count, 0)`. -/
def totalRepoLast90DaysEvents (repos : List RepoWithEvents) : Nat :=
  repos.foldl (fun acc r => acc + r.last_90_days_events_count) 0

/-- Assembly of the `Organization` record from the destructured
`PublicUser` and the five aggregate counters (`scraper.ts` lines
162-226); `twitter_username ?? null` is the identity on `Option`. -/
def mkOrganization (u : PublicUser) (repos : List RepoWithEvents) : Organization :=
  { login := u.login
    id := u.id
    avatarUrl := u.avatar_url
    htmlUrl := u.html_url
    name := u.name
    company := u.company
    blog := u.blog
    location := u.location
    email := u.email
    hireable := u.hireable
    bio := u.bio
    twitterUsername := u.twitter_username
    publicRepos := u.public_repos
    followers := u.followers
    following := u.following
    createdAt := u.created_at
    updatedAt := u.updated_at
    totalRepoStars := totalRepoStars repos
    totalRepoWatchers := totalRepoWatchers repos
    totalRepoForks := totalRepoForks repos
    totalRepoOpenIssues := totalRepoOpenIssues repos
    totalRepoLast90DaysEvents := totalRepoLast90DaysEvents repos }

/-- The per-repository body of the enrichment loop (`scraper.ts` lines
143-160): fetch the repo's events and record their number; a `RepoBlocked`
failure is caught and recorded as 0 events; any other failure is
re-thrown. -/
def processRepo (api : Api) (login : String) (repo : Repo) :
    Except GHError RepoWithEvents :=
  match api.eventsOf login repo.name with
  | .ok events =>
      .ok { toRepo := repo, last_90_days_events_count := events.length }
  | .error (.repoBlocked _) =>
      .ok { toRepo := repo, last_90_days_events_count := 0 }
  | .error (.other m) => .error (.other m)

/-- The per-candidate body of the page loop (`scraper.ts` lines 122-237):
skip when an accumulated organization already has the candidate's login;
fetch the repositories and skip when there are none; otherwise fetch the
profile, enrich every repository with its event count, aggregate, append
the assembled organization and persist a checkpoint.  The returned list
collects the checkpoints persisted by `saveToFile` during this step, in
order. -/
def processOrganization (api : Api) (st : ScrapingResult) (c : SearchUser) :
    Except GHError (ScrapingResult × List ScrapingResult) :=
  if st.organizations.any (fun o => o.login == c.login) then
    .ok (st, [])
  else if (api.reposOf c.login).isEmpty then
    .ok (st, [])
  else
    match (api.reposOf c.login).mapM (processRepo api c.login) with
    | .error e => .error e
    | .ok repos =>
        let org := mkOrganization (api.userOf c.login) repos
        let st' := { st with organizations := st.organizations ++ [org] }
        .ok (st', [st'])

/-- Sequential processing of one page of candidates (`for...of` over
`orgs.items`), threading the state and concatenating the persisted
checkpoints. -/
def processPage (api : Api) (st : ScrapingResult) :
    List SearchUser → Except GHError (ScrapingResult × List ScrapingResult)
  | [] => .ok (st, [])
  | c :: cs =>
    match processOrganization api st c with
    | .error e => .error e
    | .ok (st', saves) =>
        match processPage api st' cs with
        | .error e => .error e
        | .ok (st'', saves') => .ok (st'', saves ++ saves')

/-- One iteration of the `while` loop of `Scraper.run` (lines 102-243):
fetch the page `nextPageToScrape` of candidates created inside the window
`getPreviousWeek(date)..date`; on an empty page move the window one week
earlier, reset the cursor to 1 and persist; otherwise process every
candidate, then increment the cursor and persist. -/
def runStep (api : Api) (baseQuery : String) (st : ScrapingResult) :
    Except GHError (ScrapingResult × List ScrapingResult) :=
  let items := api.search
    { baseQuery := baseQuery
      createdFrom := getPreviousWeek st.searchingDate
      createdTo := st.searchingDate
      page := st.nextPageToScrape
      perPage := 100 }
  if items.isEmpty then
    let st' := { st with
      searchingDate := getPreviousWeek st.searchingDate
      nextPageToScrape := 1 }
    .ok (st', [st'])
  else
    match processPage api st items with
    | .error e => .error e
    | .ok (st', saves) =>
        let st'' := { st' with nextPageToScrape := st'.nextPageToScrape + 1 }
        .ok (st'', saves ++ [st''])

/-- The `while (moment(this.date).isAfter(this.oldestOrgDate))` loop of
`Scraper.run`, indexed by fuel (the source loop has no syntactic bound;
every claim is stated for sufficiently large fuel).  An escaping error
aborts the run, as in the source where the rejected promise propagates. -/
def run (api : Api) (baseQuery : String) (oldestOrgDate : Int) :
    Nat → ScrapingResult → Except GHError (ScrapingResult × List ScrapingResult)
  | 0, st => .ok (st, [])
  | fuel + 1, st =>
    if oldestOrgDate < st.searchingDate then
      match runStep api baseQuery st with
      | .error e => .error e
      | .ok (st', saves) =>
          match run api baseQuery oldestOrgDate fuel st' with
          | .error e => .error e
          | .ok (st'', saves') => .ok (st'', saves ++ saves')
    else
      .ok (st, [])

/-- The `response` field of an error thrown by the API client, holding the
parts `requestWrapper` inspects: `response.data.message`,
`response.data.block.reason`, `response.headers['x-ratelimit-remaining']`
(a possibly absent header string) and
`Number(response.headers['x-ratelimit-reset'])` (epoch seconds). -/
structure ErrResponse where
  dataMessage : Option String
  blockReason : String
  remaining : Option String
  reset : Nat
deriving DecidableEq

/-- `err.response?.data?.message`: `none` when the error has no `response`
or the payload has no message. -/
def respMessage (o : Option ErrResponse) : Option String :=
  o.bind (fun r => r.dataMessage)

/-- `err.response?.headers['x-ratelimit-remaining']`: `none` when the
error has no `response` or the header is absent. -/
def respRemaining (o : Option ErrResponse) : Option String :=
  o.bind (fun r => r.remaining)

/-- `err.response.data.block.reason` (read only after the blocked-message
check, where the response is present). -/
def respBlockReason (o : Option ErrResponse) : String :=
  (o.map (fun r => r.blockReason)).getD ""

/-- `Number(err.response.headers['x-ratelimit-reset'])` (read only in the
rate-limit branch, where the response is present). -/
def respReset (o : Option ErrResponse) : Nat :=
  (o.map (fun r => r.reset)).getD 0

/-- Outcome of one invocation of the wrapped operation, for the
`RepoBlocked` variant of `requestWrapper`: either resolved data, or a
rejection carrying an optional `response`. -/
inductive RawResult (D : Type) where
  | ok (data : D)
  | err (response : Option ErrResponse)
deriving DecidableEq

/-- Errors with which the `RepoBlocked` variant of `requestWrapper` can
reject: the `RepoBlocked` it constructs, the underlying error surfaced
once the budget is exhausted, or fuel exhaustion (an artifact of
embedding the unbounded rate-limit recursion). -/
inductive WErr where
  | repoBlocked (reason : String)
  | raw (response : Option ErrResponse)
  | outOfFuel
deriving DecidableEq

/-- Observable events of a `requestWrapper` execution: issuing the k-th
invocation of the operation, and blocking (`await wait(...)`) until the
epoch second `t`. -/
inductive Ev where
  | attempt (k : Nat)
  | waitUntil (t : Nat)
deriving DecidableEq

/-- `utils/requestWrapper` (the `RepoBlocked` variant): try the operation;
on rejection, first re-throw a blocked-repository payload as `RepoBlocked`;
otherwise, when the rate-limit-remaining header is not `'0'`, retry while
the budget lasts and surface the error once it is spent; when the header
is `'0'`, block until reset+1 epoch seconds and retry with the same
budget.  `req k` is the outcome of the k-th invocation of the operation,
`fuel` bounds the recursion depth, and the returned trace lists the
attempts and waits in order. -/
def requestWrapper {D : Type} (req : Nat → RawResult D) :
    Nat → Nat → Nat → Except WErr D × List Ev
  | 0, _, _ => (.error .outOfFuel, [])
  | fuel + 1, i, retries =>
    match req i with
    | .ok d => (.ok d, [Ev.attempt i])
    | .err resp =>
      if respMessage resp = some "Repository access blocked" then
        (.error (.repoBlocked (respBlockReason resp)), [Ev.attempt i])
      else if respRemaining resp ≠ some "0" then
        match retries with
        | r + 1 =>
            let rec1 := requestWrapper req fuel (i + 1) r
            (rec1.1, Ev.attempt i :: rec1.2)
        | 0 => (.error (.raw resp), [Ev.attempt i])
      else
        let rec1 := requestWrapper req fuel (i + 1) retries
        (rec1.1, Ev.attempt i :: Ev.waitUntil (respReset resp + 1) :: rec1.2)

/-- Outcome of one invocation of the wrapped operation, for the
`RateLimitError` variant, which also destructures the successful
response's headers: `remaining` is `headers['x-ratelimit-remaining']` and
`reset` is `headers['x-ratelimit-reset']` of the successful response. -/
inductive RawResult2 (D : Type) where
  | ok (data : D) (remaining : Option String) (reset : Nat)
  | err (response : Option ErrResponse)
deriving DecidableEq

/-- Errors with which the `RateLimitError` variant can reject: the
`RateLimitError` it constructs (which carries only the reset value, no
`response` field), a surfaced underlying error, or fuel exhaustion. -/
inductive WErr2 where
  | rateLimitError (reset : Nat)
  | raw (response : Option ErrResponse)
  | outOfFuel
deriving DecidableEq

/-- An error reaching the catch block of the `RateLimitError` variant:
either its own `RateLimitError` (thrown when a successful response
reports zero remaining quota) or the underlying rejection. -/
inductive Caught2 where
  | rateLimitError (reset : Nat)
  | raw (response : Option ErrResponse)
deriving DecidableEq

/-- `err.response` as seen by the catch block: a `RateLimitError` instance
has no `response` property. -/
def caught2Response : Caught2 → Option ErrResponse
  | .rateLimitError _ => none
  | .raw o => o

/-- The caught error as the wrapper's rejection value, for the
budget-exhausted `throw err`. -/
def caught2Err : Caught2 → WErr2
  | .rateLimitError t => .rateLimitError t
  | .raw o => .raw o

/-- `utils/requestWrapper` (the `RateLimitError` variant): try the
operation and throw `RateLimitError(headers['x-ratelimit-reset'])` when
the successful response's remaining-quota header is `'0'`; in the catch
block, when `err.response?.headers['x-ratelimit-remaining']` is not `'0'`
retry while the budget lasts and re-throw once it is spent, else block
until reset+1 and retry with the same budget. -/
def requestWrapper2 {D : Type} (req : Nat → RawResult2 D) :
    Nat → Nat → Nat → Except WErr2 D × List Ev
  | 0, _, _ => (.error .outOfFuel, [])
  | fuel + 1, i, retries =>
    let caught : Caught2 → Except WErr2 D × List Ev := fun e =>
      if respRemaining (caught2Response e) ≠ some "0" then
        match retries with
        | r + 1 =>
            let rec1 := requestWrapper2 req fuel (i + 1) r
            (rec1.1, Ev.attempt i :: rec1.2)
        | 0 => (.error (caught2Err e), [Ev.attempt i])
      else
        let rec1 := requestWrapper2 req fuel (i + 1) retries
        (rec1.1, Ev.attempt i ::
          Ev.waitUntil (respReset (caught2Response e) + 1) :: rec1.2)
    match req i with
    | .ok d remaining reset =>
        if remaining = some "0" then caught (.rateLimitError reset)
        else (.ok d, [Ev.attempt i])
    | .err resp => caught (.raw resp)

/-- A left fold accumulating `f x` over a list is the accumulator plus the
sum of the mapped list (shape of the five `reduce` calls). -/
theorem foldl_add_eq_add_sum {α : Type} (f : α → Nat) :
    ∀ (l : List α) (n : Nat),
      l.foldl (fun acc x => acc + f x) n = n + (l.map f).sum
  | [], n => by simp
  | x :: xs, n => by
    simp [List.foldl_cons, foldl_add_eq_add_sum f xs]
    omega

/-- The synthetic sub-resource list of the aggregation test: stars
`[3,0,5]`, watchers `[1,1,1]`, forks `[0,2,0]`, open issues `[4,0,0]`,
events `[10,0,7]`. -/
def exampleRepos : List RepoWithEvents :=
  [{ name := "r1", stargazers_count := some 3, watchers_count := some 1,
     forks_count := some 0, open_issues_count := some 4,
     last_90_days_events_count := 10 },
   { name := "r2", stargazers_count := some 0, watchers_count := some 1,
     forks_count := some 2, open_issues_count := some 0,
     last_90_days_events_count := 0 },
   { name := "r3", stargazers_count := some 5, watchers_count := some 1,
     forks_count := some 0, open_issues_count := some 0,
     last_90_days_events_count := 7 }]

/-- C8: each of the five derived counters equals the sum of the
corresponding field over the sub-resource list (absent star, watcher,
fork and open-issue values contributing 0); on the synthetic example with
stars [3,0,5], watchers [1,1,1], forks [0,2,0], open issues [4,0,0] and
events [10,0,7] the counters are 8, 3, 2, 4 and 17, and on the empty list
all five counters are 0. -/
theorem aggregation_correct :
    (∀ repos : List RepoWithEvents,
      totalRepoStars repos = (repos.map (fun r => r.stargazers_count.getD 0)).sum ∧
      totalRepoWatchers repos = (repos.map (fun r => r.watchers_count.getD 0)).sum ∧
      totalRepoForks repos = (repos.map (fun r => r.forks_count.getD 0)).sum ∧
      totalRepoOpenIssues repos = (repos.map (fun r => r.open_issues_count.getD 0)).sum ∧
      totalRepoLast90DaysEvents repos =
        (repos.map (fun r => r.last_90_days_events_count)).sum) ∧
    (totalRepoStars exampleRepos = 8 ∧
     totalRepoWatchers exampleRepos = 3 ∧
     totalRepoForks exampleRepos = 2 ∧
     totalRepoOpenIssues exampleRepos = 4 ∧
     totalRepoLast90DaysEvents exampleRepos = 17) ∧
    (totalRepoStars [] = 0 ∧ totalRepoWatchers [] = 0 ∧
     totalRepoForks [] = 0 ∧ totalRepoOpenIssues [] = 0 ∧
     totalRepoLast90DaysEvents [] = 0) := by
  refine ⟨fun repos => ?_, by decide, by decide⟩
  refine ⟨?_, ?_, ?_, ?_, ?_⟩ <;>
    simp [totalRepoStars, totalRepoWatchers, totalRepoForks,
      totalRepoOpenIssues, totalRepoLast90DaysEvents, foldl_add_eq_add_sum]

/-- C9: a candidate whose repository list comes back empty is skipped
without persisting: `processOrganization` returns the state unchanged and
records no checkpoint save. -/
theorem empty_repos_entity_skipped (api : Api) (st : ScrapingResult)
    (c : SearchUser) (h : api.reposOf c.login = []) :
    processOrganization api st c = .ok (st, []) := by
  unfold processOrganization
  by_cases hdup : st.organizations.any (fun o => o.login == c.login)
  · simp [hdup]
  · simp [hdup, h]

/-- A minimal `PublicUser` profile for concrete executions; the profile
returned for `l` has login `l`, as `GET /users/{username}` does. -/
def userW (l : String) : PublicUser :=
  { login := l, id := 0, avatar_url := "", html_url := "", name := none,
    company := none, blog := none, location := none, email := none,
    hireable := none, bio := none, twitter_username := none,
    public_repos := 0, followers := 0, following := 0,
    created_at := 0, updated_at := 0 }

/-- A concrete API whose repository listing is always empty. -/
def apiEmptyRepos : Api :=
  { search := fun _ => [], reposOf := fun _ => [], userOf := userW,
    eventsOf := fun _ _ => .ok [] }

/-- A concrete initial crawl state. -/
def stW : ScrapingResult :=
  { nextPageToScrape := 1, searchingDate := 0, organizations := [] }

/-- Witness for C9 at a concrete API, state and candidate. -/
theorem empty_repos_entity_skipped_witness :
    apiEmptyRepos.reposOf "acme" = [] ∧
    processOrganization apiEmptyRepos stW { login := "acme" } =
      .ok (stW, []) :=
  ⟨rfl, empty_repos_entity_skipped apiEmptyRepos stW { login := "acme" } rfl⟩

/-- C5: an error whose payload message is `'Repository access blocked'`
makes `requestWrapper` fail immediately with `RepoBlocked` carrying the
payload's block reason — for every retry budget and every value of the
rate-limit headers (so this classification has priority over the
rate-limit and transient ones), with no further attempt and no wait. -/
theorem blocked_error_immediate {D : Type} (req : Nat → RawResult D)
    (fuel i retries : Nat) (resp : Option ErrResponse)
    (hreq : req i = .err resp)
    (hmsg : respMessage resp = some "Repository access blocked") :
    requestWrapper req (fuel + 1) i retries =
      (.error (.repoBlocked (respBlockReason resp)), [Ev.attempt i]) := by
  simp [requestWrapper, hreq, hmsg]

/-- A concrete blocked-error response whose rate-limit header also reads
`'0'`, so the blocked classification is exercised with the rate-limit
signal present. -/
def blockedResp : ErrResponse :=
  { dataMessage := some "Repository access blocked",
    blockReason := "dmca", remaining := some "0", reset := 1000 }

/-- A concrete operation that always rejects with the blocked payload. -/
def reqBlocked : Nat → RawResult Nat := fun _ => .err (some blockedResp)

/-- Witness for C5: at the blocked payload (with remaining quota `'0'` in
the headers and a positive retry budget) the wrapper fails at once with
the stated reason. -/
theorem blocked_error_immediate_witness :
    reqBlocked 0 = .err (some blockedResp) ∧
    respMessage (some blockedResp) = some "Repository access blocked" ∧
    requestWrapper reqBlocked 5 0 1 =
      (.error (.repoBlocked "dmca"), [Ev.attempt 0]) :=
  ⟨rfl, rfl, blocked_error_immediate reqBlocked 4 0 1 (some blockedResp) rfl rfl⟩

/-- C4: an error response whose `x-ratelimit-remaining` header is `'0'`
makes the governor block until the header's `x-ratelimit-reset` epoch
second plus one and then re-invoke itself on the same operation with the
same, undecremented retry budget — in both `requestWrapper` variants
(for the `RepoBlocked` variant, provided the payload is not a blocked
one, which is checked first). -/
theorem rate_limit_wait_keeps_budget {D : Type} :
    (∀ (req : Nat → RawResult D) (fuel i retries : Nat) (r : ErrResponse),
      req i = .err (some r) →
      r.dataMessage ≠ some "Repository access blocked" →
      r.remaining = some "0" →
      requestWrapper req (fuel + 1) i retries =
        ((requestWrapper req fuel (i + 1) retries).1,
         Ev.attempt i :: Ev.waitUntil (r.reset + 1) ::
           (requestWrapper req fuel (i + 1) retries).2)) ∧
    (∀ (req2 : Nat → RawResult2 D) (fuel i retries : Nat) (r : ErrResponse),
      req2 i = .err (some r) →
      r.remaining = some "0" →
      requestWrapper2 req2 (fuel + 1) i retries =
        ((requestWrapper2 req2 fuel (i + 1) retries).1,
         Ev.attempt i :: Ev.waitUntil (r.reset + 1) ::
           (requestWrapper2 req2 fuel (i + 1) retries).2)) := by
  constructor
  · intro req fuel i retries r hreq hmsg hrem
    simp [requestWrapper, hreq, respMessage, hmsg, respRemaining, hrem,
      respReset]
  · intro req2 fuel i retries r hreq hrem
    simp [requestWrapper2, hreq, caught2Response, respRemaining, hrem,
      respReset]

/-- A concrete rate-limited error response. -/
def rateResp : ErrResponse :=
  { dataMessage := none, blockReason := "", remaining := some "0",
    reset := 777 }

/-- A concrete operation that is rate-limited on its first invocation and
succeeds on the next. -/
def reqRate : Nat → RawResult Nat := fun k =>
  if k = 0 then .err (some rateResp) else .ok 42

/-- The same scenario for the `RateLimitError` variant. -/
def reqRate2 : Nat → RawResult2 Nat := fun k =>
  if k = 0 then .err (some rateResp) else .ok 42 (some "10") 0

/-- Witness for C4: in both variants the first, rate-limited invocation
waits until epoch second 778 and retries with the same budget 1, which
then succeeds. -/
theorem rate_limit_wait_keeps_budget_witness :
    reqRate 0 = .err (some rateResp) ∧
    rateResp.dataMessage ≠ some "Repository access blocked" ∧
    rateResp.remaining = some "0" ∧
    requestWrapper reqRate 2 0 1 =
      ((requestWrapper reqRate 1 1 1).1,
       Ev.attempt 0 :: Ev.waitUntil 778 ::
         (requestWrapper reqRate 1 1 1).2) ∧
    requestWrapper2 reqRate2 2 0 1 =
      ((requestWrapper2 reqRate2 1 1 1).1,
       Ev.attempt 0 :: Ev.waitUntil 778 ::
         (requestWrapper2 reqRate2 1 1 1).2) :=
  ⟨rfl, by decide, rfl,
    (rate_limit_wait_keeps_budget (D := Nat)).1 reqRate 1 0 1 rateResp rfl
      (by decide) rfl,
    (rate_limit_wait_keeps_budget (D := Nat)).2 reqRate2 1 0 1 rateResp rfl
      rfl⟩

/-- An invocation outcome that is neither a blocked payload nor a
zero-remaining-quota rate-limit signal. -/
def transientOnly {D : Type} : RawResult D → Prop
  | .ok _ => True
  | .err resp =>
      respMessage resp ≠ some "Repository access blocked" ∧
      respRemaining resp ≠ some "0"

/-- Number of issued attempts recorded in a trace. -/
def countAttempts (tr : List Ev) : Nat :=
  (tr.filter (fun e => match e with
    | .attempt _ => true
    | .waitUntil _ => false)).length

/-- As long as every invocation outcome is a success or a transient
error, `requestWrapper` issues at most `retries + 1` attempts. -/
theorem countAttempts_le {D : Type} (req : Nat → RawResult D)
    (h : ∀ j, transientOnly (req j)) :
    ∀ fuel i retries,
      countAttempts (requestWrapper req fuel i retries).2 ≤ retries + 1 := by
  intro fuel
  induction fuel with
  | zero => intro i retries; simp [requestWrapper, countAttempts]
  | succ n ih =>
    intro i retries
    cases hreq : req i with
    | ok d => simp [requestWrapper, hreq, countAttempts]
    | err resp =>
      have ht := h i
      rw [hreq] at ht
      obtain ⟨hmsg, hrem⟩ := ht
      cases retries with
      | zero => simp [requestWrapper, hreq, hmsg, hrem, countAttempts]
      | succ r =>
        have hrec := ih (i + 1) r
        simp only [requestWrapper, hreq, hmsg, hrem, if_neg, if_pos,
          ne_eq, not_false_iff, countAttempts, List.filter_cons,
          List.length_cons] at hrec ⊢
        omega

/-- C6: a failure that is neither a blocked payload nor a rate-limit
signal is retried with the budget decremented while the budget is
positive, and once the budget is 0 the underlying error is surfaced
unchanged; consequently, when every outcome is a success or such a
transient error, the default budget of 1 yields at most two attempts. -/
theorem transient_retry_policy {D : Type} (req : Nat → RawResult D) :
    (∀ fuel i r (resp : Option ErrResponse),
      req i = .err resp →
      respMessage resp ≠ some "Repository access blocked" →
      respRemaining resp ≠ some "0" →
      requestWrapper req (fuel + 1) i (r + 1) =
        ((requestWrapper req fuel (i + 1) r).1,
         Ev.attempt i :: (requestWrapper req fuel (i + 1) r).2)) ∧
    (∀ fuel i (resp : Option ErrResponse),
      req i = .err resp →
      respMessage resp ≠ some "Repository access blocked" →
      respRemaining resp ≠ some "0" →
      requestWrapper req (fuel + 1) i 0 =
        (.error (.raw resp), [Ev.attempt i])) ∧
    (∀ fuel i,
      (∀ j, transientOnly (req j)) →
      countAttempts (requestWrapper req fuel i 1).2 ≤ 2) := by
  refine ⟨?_, ?_, ?_⟩
  · intro fuel i r resp hreq hmsg hrem
    simp [requestWrapper, hreq, hmsg, hrem]
  · intro fuel i resp hreq hmsg hrem
    simp [requestWrapper, hreq, hmsg, hrem]
  · intro fuel i h
    exact countAttempts_le req h fuel i 1

/-- A concrete transient error response (headers present, remaining
quota nonzero). -/
def transResp : ErrResponse :=
  { dataMessage := some "Server Error", blockReason := "",
    remaining := some "3", reset := 0 }

/-- A concrete operation that always fails with a transient error. -/
def reqTrans : Nat → RawResult Nat := fun _ => .err (some transResp)

/-- Witness for C6: with budget 1 the transient failure is retried once
(budget decremented to 0), the second failure surfaces the underlying
error unchanged, and the whole run issues exactly 2 ≤ 2 attempts. -/
theorem transient_retry_policy_witness :
    reqTrans 0 = .err (some transResp) ∧
    respMessage (some transResp) ≠ some "Repository access blocked" ∧
    respRemaining (some transResp) ≠ some "0" ∧
    requestWrapper reqTrans 2 0 1 =
      ((requestWrapper reqTrans 1 1 0).1,
       Ev.attempt 0 :: (requestWrapper reqTrans 1 1 0).2) ∧
    requestWrapper reqTrans 1 1 0 =
      (.error (.raw (some transResp)), [Ev.attempt 1]) ∧
    countAttempts (requestWrapper reqTrans 2 0 1).2 ≤ 2 :=
  ⟨rfl, by decide, by decide,
    (transient_retry_policy reqTrans).1 1 0 0 (some transResp) rfl
      (by decide) (by decide),
    (transient_retry_policy reqTrans).2.1 0 1 (some transResp) rfl
      (by decide) (by decide),
    (transient_retry_policy reqTrans).2.2 2 0
      (fun _ => ⟨by decide, by decide⟩)⟩

/-- C10: in the `RateLimitError` variant, a successful response with
`x-ratelimit-remaining = '0'` makes the wrapper throw a `RateLimitError`
that carries no `response` metadata, so its own catch block classifies it
as transient: with a positive budget the call is retried immediately with
the budget decremented and no wait event, and with budget 0 the
`RateLimitError` itself is re-thrown — the blocking wait-until-reset path
is not entered. -/
theorem success_zero_quota_is_transient {D : Type} (req : Nat → RawResult2 D)
    (d : D) (reset : Nat) :
    caught2Response (.rateLimitError reset) = none ∧
    (∀ fuel i r, req i = .ok d (some "0") reset →
      requestWrapper2 req (fuel + 1) i (r + 1) =
        ((requestWrapper2 req fuel (i + 1) r).1,
         Ev.attempt i :: (requestWrapper2 req fuel (i + 1) r).2)) ∧
    (∀ fuel i, req i = .ok d (some "0") reset →
      requestWrapper2 req (fuel + 1) i 0 =
        (.error (.rateLimitError reset), [Ev.attempt i])) := by
  refine ⟨rfl, ?_, ?_⟩
  · intro fuel i r hreq
    simp [requestWrapper2, hreq, caught2Response, respRemaining]
  · intro fuel i hreq
    simp [requestWrapper2, hreq, caught2Response, respRemaining, caught2Err]

/-- A concrete operation for the `RateLimitError` variant that always
succeeds with data 7 but reports zero remaining quota and reset 900. -/
def reqQuotaZero : Nat → RawResult2 Nat := fun _ => .ok 7 (some "0") 900

/-- Witness for C10: with budget 1 the quota-exhausted success is retried
once with budget 0 and no wait event, and the budget-0 run re-throws the
`RateLimitError`. -/
theorem success_zero_quota_is_transient_witness :
    reqQuotaZero 0 = .ok 7 (some "0") 900 ∧
    requestWrapper2 reqQuotaZero 2 0 1 =
      ((requestWrapper2 reqQuotaZero 1 1 0).1,
       Ev.attempt 0 :: (requestWrapper2 reqQuotaZero 1 1 0).2) ∧
    requestWrapper2 reqQuotaZero 1 1 0 =
      (.error (.rateLimitError 900), [Ev.attempt 1]) :=
  ⟨rfl,
    (success_zero_quota_is_transient reqQuotaZero 7 900).2.1 1 0 0 rfl,
    (success_zero_quota_is_transient reqQuotaZero 7 900).2.2 0 1 rfl⟩

/-- When the fetched page is empty, one loop iteration moves the window
one week earlier, resets the cursor to 1 and persists exactly that
checkpoint. -/
theorem runStep_empty_page (api : Api) (baseQuery : String)
    (st : ScrapingResult)
    (hempty : api.search
      { baseQuery := baseQuery
        createdFrom := getPreviousWeek st.searchingDate
        createdTo := st.searchingDate
        page := st.nextPageToScrape
        perPage := 100 } = []) :
    runStep api baseQuery st =
      .ok ({ st with searchingDate := getPreviousWeek st.searchingDate,
                     nextPageToScrape := 1 },
           [{ st with searchingDate := getPreviousWeek st.searchingDate,
                      nextPageToScrape := 1 }]) := by
  simp [runStep, hempty]

/-- C1: under the loop condition, an empty page at cursor N and window
end date D makes the run persist next the checkpoint with cursor 1,
searching date D − 7 days and the organization list unchanged, and then
continue the loop from that state rather than terminate. -/
theorem empty_page_advances_window (api : Api) (baseQuery : String)
    (oldestOrgDate : Int) (fuel : Nat) (st : ScrapingResult)
    (hcond : oldestOrgDate < st.searchingDate)
    (hempty : api.search
      { baseQuery := baseQuery
        createdFrom := getPreviousWeek st.searchingDate
        createdTo := st.searchingDate
        page := st.nextPageToScrape
        perPage := 100 } = []) :
    getPreviousWeek st.searchingDate = st.searchingDate - 7 ∧
    run api baseQuery oldestOrgDate (fuel + 1) st =
      (match run api baseQuery oldestOrgDate fuel
          { st with searchingDate := st.searchingDate - 7,
                    nextPageToScrape := 1 } with
       | .error e => .error e
       | .ok (st'', saves') =>
           .ok (st'', { st with searchingDate := st.searchingDate - 7,
                                nextPageToScrape := 1 } :: saves')) := by
  refine ⟨rfl, ?_⟩
  have hstep := runStep_empty_page api baseQuery st hempty
  simp only [run, if_pos hcond, hstep, getPreviousWeek]
  cases run api baseQuery oldestOrgDate fuel
      { st with searchingDate := st.searchingDate - 7,
                nextPageToScrape := 1 } with
  | error e => rfl
  | ok p => cases p with
    | mk st'' saves' => simp

/-- Witness for C1: from date 0 with lower bound −10 and an
always-empty search, one step moves the checkpoint to date −7, cursor 1,
and the loop goes on. -/
theorem empty_page_advances_window_witness :
    (-10 : Int) < stW.searchingDate ∧
    apiEmptyRepos.search
      { baseQuery := "q", createdFrom := getPreviousWeek stW.searchingDate,
        createdTo := stW.searchingDate, page := stW.nextPageToScrape,
        perPage := 100 } = [] ∧
    (getPreviousWeek stW.searchingDate = stW.searchingDate - 7 ∧
     run apiEmptyRepos "q" (-10) 1 stW =
      (match run apiEmptyRepos "q" (-10) 0
          { stW with searchingDate := stW.searchingDate - 7,
                     nextPageToScrape := 1 } with
       | .error e => .error e
       | .ok (st'', saves') =>
           .ok (st'', { stW with searchingDate := stW.searchingDate - 7,
                                 nextPageToScrape := 1 } :: saves'))) :=
  ⟨by decide, rfl,
    empty_page_advances_window apiEmptyRepos "q" (-10) 0 stW (by decide) rfl⟩

/-- Processing one candidate never touches the page cursor or the
searching date. -/
theorem processOrganization_frame (api : Api) (st : ScrapingResult)
    (c : SearchUser) (st' : ScrapingResult) (saves : List ScrapingResult)
    (h : processOrganization api st c = .ok (st', saves)) :
    st'.searchingDate = st.searchingDate ∧
    st'.nextPageToScrape = st.nextPageToScrape := by
  unfold processOrganization at h
  split at h
  · cases h; exact ⟨rfl, rfl⟩
  · split at h
    · cases h; exact ⟨rfl, rfl⟩
    · split at h
      · cases h
      · cases h; exact ⟨rfl, rfl⟩

/-- Processing a whole page never touches the page cursor or the
searching date. -/
theorem processPage_frame (api : Api) :
    ∀ (cs : List SearchUser) (st st' : ScrapingResult)
      (saves : List ScrapingResult),
      processPage api st cs = .ok (st', saves) →
      st'.searchingDate = st.searchingDate ∧
      st'.nextPageToScrape = st.nextPageToScrape
  | [], st, st', saves, h => by cases h; exact ⟨rfl, rfl⟩
  | c :: cs, st, st', saves, h => by
    rw [processPage] at h
    cases hpo : processOrganization api st c with
    | error e => rw [hpo] at h; cases h
    | ok p =>
      obtain ⟨st1, saves1⟩ := p
      simp only [hpo] at h
      cases hpp : processPage api st1 cs with
      | error e => rw [hpp] at h; cases h
      | ok q =>
        obtain ⟨st2, saves2⟩ := q
        simp only [hpp, Except.ok.injEq, Prod.mk.injEq] at h
        obtain ⟨h1, _⟩ := h
        subst h1
        have ho := processOrganization_frame api st c st1 saves1 hpo
        have hp := processPage_frame api cs st1 st2 saves2 hpp
        exact ⟨hp.1.trans ho.1, hp.2.trans ho.2⟩

/-- C7: every successful loop iteration either keeps the searching date
fixed while incrementing the page cursor, or moves the date backward by
exactly 7 days while resetting the cursor to 1; in particular the date
never moves forward. -/
theorem searching_date_monotone (api : Api) (baseQuery : String)
    (st st' : ScrapingResult) (saves : List ScrapingResult)
    (h : runStep api baseQuery st = .ok (st', saves)) :
    ((st'.searchingDate = st.searchingDate ∧
      st'.nextPageToScrape = st.nextPageToScrape + 1) ∨
     (st'.searchingDate = st.searchingDate - 7 ∧
      st'.nextPageToScrape = 1)) ∧
    st'.searchingDate ≤ st.searchingDate := by
  simp only [runStep] at h
  split at h
  · cases h
    refine ⟨Or.inr ⟨rfl, rfl⟩, ?_⟩
    simp only [getPreviousWeek]
    omega
  · cases hpp : processPage api st
        (api.search
          { baseQuery := baseQuery
            createdFrom := getPreviousWeek st.searchingDate
            createdTo := st.searchingDate
            page := st.nextPageToScrape
            perPage := 100 }) with
    | error e => simp [hpp] at h
    | ok q =>
      obtain ⟨st1, saves1⟩ := q
      simp only [hpp, Except.ok.injEq, Prod.mk.injEq] at h
      obtain ⟨h1, _⟩ := h
      subst h1
      have hp := processPage_frame api _ st st1 saves1 hpp
      exact ⟨Or.inl ⟨hp.1, by rw [hp.2]⟩, le_of_eq hp.1⟩

/-- The state one empty-page step ahead of `stW`. -/
def stW7 : ScrapingResult :=
  { nextPageToScrape := 1, searchingDate := -7, organizations := [] }

/-- Witness for C7: the concrete empty-search step from date 0 moves the
date back exactly 7 days with the cursor reset to 1. -/
theorem searching_date_monotone_witness :
    runStep apiEmptyRepos "q" stW = .ok (stW7, [stW7]) ∧
    (((stW7.searchingDate = stW.searchingDate ∧
       stW7.nextPageToScrape = stW.nextPageToScrape + 1) ∨
      (stW7.searchingDate = stW.searchingDate - 7 ∧
       stW7.nextPageToScrape = 1)) ∧
     stW7.searchingDate ≤ stW.searchingDate) :=
  ⟨rfl, searching_date_monotone apiEmptyRepos "q" stW stW7 [stW7] rfl⟩

/-- Number of accumulated organizations carrying a given login. -/
def countLogin (L : String) (orgs : List Organization) : Nat :=
  (orgs.filter (fun o => o.login == L)).length

/-- Under the profile contract (`GET /users/{username}` returns a profile
whose login is the requested username), processing one candidate never
changes the number of accumulated organizations with a login that is
already present. -/
theorem processOrganization_countLogin (api : Api) (st : ScrapingResult)
    (c : SearchUser) (L : String) (st' : ScrapingResult)
    (saves : List ScrapingResult)
    (hapi : ∀ l, (api.userOf l).login = l)
    (hL : 0 < countLogin L st.organizations)
    (h : processOrganization api st c = .ok (st', saves)) :
    countLogin L st'.organizations = countLogin L st.organizations := by
  have hL' : 0 < (st.organizations.filter (fun o => o.login == L)).length := hL
  unfold processOrganization at h
  split at h
  · cases h; rfl
  · rename_i hdup
    split at h
    · cases h; rfl
    · split at h
      · cases h
      · rename_i repos hmap
        cases h
        have hLmem : ∃ o ∈ st.organizations, o.login = L := by
          obtain ⟨o, ho⟩ :=
            List.exists_mem_of_ne_nil _ (List.length_pos.mp hL')
          have hm := List.mem_filter.mp ho
          exact ⟨o, hm.1, by simpa using hm.2⟩
        have hcl : c.login ≠ L := by
          intro hclL
          apply hdup
          obtain ⟨o, ho, hoL⟩ := hLmem
          refine List.any_eq_true.mpr ⟨o, ho, ?_⟩
          simp [hoL, hclL]
        have hfalse :
            ((mkOrganization (api.userOf c.login) repos).login == L) = false := by
          simp [mkOrganization, hapi c.login, hcl]
        simp [countLogin, List.filter_append, List.filter_cons, hfalse]

/-- Page-level version: under the profile contract, processing a page
never changes the number of accumulated organizations with an
already-present login. -/
theorem processPage_countLogin (api : Api) (L : String)
    (hapi : ∀ l, (api.userOf l).login = l) :
    ∀ (cs : List SearchUser) (st st' : ScrapingResult)
      (saves : List ScrapingResult),
      0 < countLogin L st.organizations →
      processPage api st cs = .ok (st', saves) →
      countLogin L st'.organizations = countLogin L st.organizations
  | [], st, st', saves, hL, h => by cases h; rfl
  | c :: cs, st, st', saves, hL, h => by
    rw [processPage] at h
    cases hpo : processOrganization api st c with
    | error e => rw [hpo] at h; cases h
    | ok p =>
      obtain ⟨st1, saves1⟩ := p
      simp only [hpo] at h
      cases hpp : processPage api st1 cs with
      | error e => rw [hpp] at h; cases h
      | ok q =>
        obtain ⟨st2, saves2⟩ := q
        simp only [hpp, Except.ok.injEq, Prod.mk.injEq] at h
        obtain ⟨h1, _⟩ := h
        subst h1
        have h1 :=
          processOrganization_countLogin api st c L st1 saves1 hapi hL hpo
        have hL1 : 0 < countLogin L st1.organizations := by
          rw [h1]; exact hL
        have h2 :=
          processPage_countLogin api L hapi cs st1 st2 saves2 hL1 hpp
        exact h2.trans h1

/-- C2: under the profile contract, if the accumulated list already
contains an organization with login L, a successful loop iteration never
appends a second organization with login L (their number is unchanged),
and a candidate whose login is L is skipped outright — the state is
untouched and nothing is persisted for it. -/
theorem dedup_no_second_login (api : Api) (baseQuery : String)
    (st st' : ScrapingResult) (saves : List ScrapingResult) (L : String)
    (hapi : ∀ l, (api.userOf l).login = l)
    (hL : 0 < countLogin L st.organizations)
    (h : runStep api baseQuery st = .ok (st', saves)) :
    countLogin L st'.organizations = countLogin L st.organizations ∧
    ∀ c : SearchUser, c.login = L →
      processOrganization api st c = .ok (st, []) := by
  constructor
  · simp only [runStep] at h
    split at h
    · cases h; rfl
    · cases hpp : processPage api st
          (api.search
            { baseQuery := baseQuery
              createdFrom := getPreviousWeek st.searchingDate
              createdTo := st.searchingDate
              page := st.nextPageToScrape
              perPage := 100 }) with
      | error e => simp [hpp] at h
      | ok q =>
        obtain ⟨st1, saves1⟩ := q
        simp only [hpp, Except.ok.injEq, Prod.mk.injEq] at h
        obtain ⟨h1, _⟩ := h
        subst h1
        exact processPage_countLogin api L hapi _ st st1 saves1 hL hpp
  · intro c hc
    have hL' : 0 < (st.organizations.filter (fun o => o.login == L)).length := hL
    have hany : (st.organizations.any fun o => o.login == c.login) = true := by
      obtain ⟨o, ho⟩ :=
        List.exists_mem_of_ne_nil _ (List.length_pos.mp hL')
      have hm := List.mem_filter.mp ho
      refine List.any_eq_true.mpr ⟨o, hm.1, ?_⟩
      rw [hc]
      exact hm.2
    simp [processOrganization, hany]

/-- An organization record already accumulated under login `"a"`. -/
def orgA : Organization := mkOrganization (userW "a") []

/-- A crawl state already holding `orgA`. -/
def stA : ScrapingResult :=
  { nextPageToScrape := 1, searchingDate := 0, organizations := [orgA] }

/-- A concrete API whose search page lists the already-seen `"a"` and a
fresh `"b"` with no repositories. -/
def apiDedup : Api :=
  { search := fun _ => [{ login := "a" }, { login := "b" }],
    reposOf := fun _ => [], userOf := userW,
    eventsOf := fun _ _ => .ok [] }

/-- Witness for C2: on a page listing `"a"` again, the count of
organizations with login `"a"` stays 1 and the candidate is skipped
without any state change or save. -/
theorem dedup_no_second_login_witness :
    0 < countLogin "a" stA.organizations ∧
    countLogin "a" ({ stA with nextPageToScrape := 2 } :
        ScrapingResult).organizations = countLogin "a" stA.organizations ∧
    processOrganization apiDedup stA { login := "a" } = .ok (stA, []) :=
  ⟨by decide,
    (dedup_no_second_login apiDedup "q" stA
      { stA with nextPageToScrape := 2 }
      [{ stA with nextPageToScrape := 2 }] "a" (fun _ => rfl)
      (by decide) rfl).1,
    (dedup_no_second_login apiDedup "q" stA
      { stA with nextPageToScrape := 2 }
      [{ stA with nextPageToScrape := 2 }] "a" (fun _ => rfl)
      (by decide) rfl).2 { login := "a" } rfl⟩

/-- C3: during enrichment of one entity, a `RepoBlocked` failure of a
repository's event fetch is caught and contributes an event count of 0
while enrichment continues; any other event-fetch failure propagates:
`processRepo` rejects with it, `processOrganization` rejects with it, and
it escapes the page loop.  When every repository is enriched (blocked
ones counting 0), the entity is still assembled, appended and
persisted. -/
theorem blocked_event_fetch_tolerated (api : Api) :
    (∀ (login : String) (repo : Repo) (reason : String),
      api.eventsOf login repo.name = .error (.repoBlocked reason) →
      processRepo api login repo =
        .ok { toRepo := repo, last_90_days_events_count := 0 }) ∧
    (∀ (login : String) (repo : Repo) (m : String),
      api.eventsOf login repo.name = .error (.other m) →
      processRepo api login repo = .error (.other m)) ∧
    (∀ (st : ScrapingResult) (c : SearchUser)
      (repos : List RepoWithEvents),
      (st.organizations.any fun o => o.login == c.login) = false →
      api.reposOf c.login ≠ [] →
      (api.reposOf c.login).mapM (processRepo api c.login) = .ok repos →
      processOrganization api st c =
        .ok ({ st with organizations := st.organizations ++
                 [mkOrganization (api.userOf c.login) repos] },
             [{ st with organizations := st.organizations ++
                 [mkOrganization (api.userOf c.login) repos] }])) ∧
    (∀ (st : ScrapingResult) (c : SearchUser) (e : GHError),
      (st.organizations.any fun o => o.login == c.login) = false →
      api.reposOf c.login ≠ [] →
      (api.reposOf c.login).mapM (processRepo api c.login) = .error e →
      processOrganization api st c = .error e) ∧
    (∀ (st : ScrapingResult) (c : SearchUser) (cs : List SearchUser)
      (e : GHError),
      processOrganization api st c = .error e →
      processPage api st (c :: cs) = .error e) := by
  refine ⟨?_, ?_, ?_, ?_, ?_⟩
  · intro login repo reason hev
    simp [processRepo, hev]
  · intro login repo m hev
    simp [processRepo, hev]
  · intro st c repos hdup hne hmap
    have hempty : (api.reposOf c.login).isEmpty = false := by
      cases hrep : api.reposOf c.login with
      | nil => exact absurd hrep hne
      | cons a l => rfl
    simp only [processOrganization, hmap, hdup, hempty]
    simp
  · intro st c e hdup hne hmap
    have hempty : (api.reposOf c.login).isEmpty = false := by
      cases hrep : api.reposOf c.login with
      | nil => exact absurd hrep hne
      | cons a l => rfl
    simp only [processOrganization, hmap, hdup, hempty]
    simp
  · intro st c cs e hpo
    simp [processPage, hpo]

/-- Two concrete repositories owned by `"acme"`; the event fetch for the
first is blocked, the second returns three events. -/
def repoX : Repo :=
  { name := "x", stargazers_count := some 2, watchers_count := none,
    forks_count := some 1, open_issues_count := none }

/-- The second concrete repository. -/
def repoY : Repo :=
  { name := "y", stargazers_count := some 4, watchers_count := some 5,
    forks_count := none, open_issues_count := some 6 }

/-- A concrete API for the blocked-event scenario: listing `"acme"`'s
repositories yields `repoX` and `repoY`, the event fetch for `"x"` is
permanently blocked and the one for `"y"` returns three events. -/
def apiBlocked : Api :=
  { search := fun _ => [{ login := "acme" }],
    reposOf := fun _ => [repoX, repoY],
    userOf := userW,
    eventsOf := fun _ name =>
      if name = "x" then .error (.repoBlocked "tos")
      else .ok [{ id := 0 }, { id := 1 }, { id := 2 }] }

/-- The enriched repositories of the blocked-event scenario: `repoX`
contributes 0 events, `repoY` contributes 3. -/
def reposXY : List RepoWithEvents :=
  [{ toRepo := repoX, last_90_days_events_count := 0 },
   { toRepo := repoY, last_90_days_events_count := 3 }]

/-- Witness for C3: with `"x"` blocked, its enriched record carries 0
events, and the entity is still assembled from both repositories,
appended and persisted. -/
theorem blocked_event_fetch_tolerated_witness :
    apiBlocked.eventsOf "acme" repoX.name = .error (.repoBlocked "tos") ∧
    processRepo apiBlocked "acme" repoX =
      .ok { toRepo := repoX, last_90_days_events_count := 0 } ∧
    processOrganization apiBlocked stW { login := "acme" } =
      .ok ({ stW with organizations := stW.organizations ++
               [mkOrganization (apiBlocked.userOf "acme") reposXY] },
           [{ stW with organizations := stW.organizations ++
               [mkOrganization (apiBlocked.userOf "acme") reposXY] }]) :=
  ⟨rfl,
    (blocked_event_fetch_tolerated apiBlocked).1 "acme" repoX "tos" rfl,
    (blocked_event_fetch_tolerated apiBlocked).2.2.1 stW { login := "acme" }
      reposXY rfl (by decide) rfl⟩
